import Mathlib

/-!
Verification development for the `current-rms-schedule` backend proxy.

The repository consists of several near-duplicate Express server revisions:
`src/server.js`, `src/unnamed/part_000` and the two revisions inside
`src/unnamed/part_001`.  The components embedded here are:

* the paginated collection fetcher `fetchAllPages` of `src/unnamed/part_000`
  (page size 100, hard ceiling of 50 pages, query parameters merged as
  `{ ...baseParams, page, per_page }`);
* the in-process date-range filter `filteredOpps` of `src/unnamed/part_001`
  (first revision), together with its `toDate` helper;
* the job/staff normalizers of `src/server.js` and `src/unnamed/part_000`;
* the `/api/schedule` request handler of `src/server.js`, including its
  mock and mock-error fallback branches.

JavaScript truthiness on the string-valued fields is modelled explicitly:
a field is `Option String`, and `none` (absent/null/undefined) as well as
`some ""` count as falsy.
-/

set_option autoImplicit false

namespace CurrentRms

/-- A query-parameter value as sent by the axios client: the source puts
numbers (`page`, `per_page`, ids) and strings (`view: 'all'`, ISO dates)
into the `params` object. -/
inductive ParamVal where
  | nat (n : Nat)
  | str (s : String)
deriving DecidableEq, Repr

/-- The query-parameter object actually sent for one page request in
`fetchAllPages` (src/unnamed/part_000, lines 34-40):
`{ ...baseParams, page, per_page }` — object spread puts `baseParams`
first, so the internally controlled `page` and the fixed `per_page = 100`
override any entry of the same name in `baseParams`. -/
def mergedParams (baseParams : String → Option ParamVal) (page : Nat) :
    String → Option ParamVal :=
  fun k =>
    if k == "page" then some (.nat page)
    else if k == "per_page" then some (.nat 100)
    else baseParams k

/-- The pagination loop of `fetchAllPages` (src/unnamed/part_000, lines
27-52).  `remote` maps a request's query parameters to the list of items
the remote returns for it (`resp.data?.[collectionKey] || []`); the
`fuel` argument counts the remaining iterations allowed by the
`while (page <= 50)` guard.  The result is the accumulated item list
together with the list of query-parameter objects actually requested, in
request order.  The source appends the returned page to the accumulator
and then breaks when the page is short (`pageItems.length < per_page`). -/
def fetchLoop {α : Type} (remote : (String → Option ParamVal) → List α)
    (baseParams : String → Option ParamVal) :
    Nat → Nat → List α × List (String → Option ParamVal)
  | 0, _ => ([], [])
  | fuel + 1, page =>
    let req := mergedParams baseParams page
    let pageItems := remote req
    if pageItems.length < 100 then (pageItems, [req])
    else
      let rest := fetchLoop remote baseParams fuel (page + 1)
      (pageItems ++ rest.1, req :: rest.2)

/-- `fetchAllPages(path, collectionKey, baseParams)` of
src/unnamed/part_000: per_page fixed at 100, starting page 1, safety
ceiling of 50 pages.  The `path`/`collectionKey` arguments select the
remote collection and are absorbed into the `remote` oracle. -/
def fetchAllPages {α : Type} (remote : (String → Option ParamVal) → List α)
    (baseParams : String → Option ParamVal) :
    List α × List (String → Option ParamVal) :=
  fetchLoop remote baseParams 50 1

/-- Abbreviation: the items the remote serves for page `p` of a fetch with
the given base parameters. -/
def pageOf {α : Type} (remote : (String → Option ParamVal) → List α)
    (baseParams : String → Option ParamVal) (p : Nat) : List α :=
  remote (mergedParams baseParams p)

/-! ### JavaScript string truthiness -/

/-- JS truthiness of an optional string field: `undefined`/`null` (here
`none`) and the empty string are falsy, every other string is truthy. -/
def falsyS : Option String → Bool
  | none => true
  | some s => s == ""

/-- `a || b` on string-valued JS expressions. -/
def jsOr (a b : Option String) : Option String :=
  if falsyS a then b else a

/-- `a || d` where the final alternative `d` is a (string) literal known
to be present, as in ``o.name || o.subject || `Opportunity #${o.id}` ``. -/
def jsSel (a : Option String) (d : String) : String :=
  if falsyS a then d else a.getD d

/-- `v || null`: collapse a falsy value to `null` (the tail of chains such
as `o.starts_at || o.starts_at_date || o.start_at || o.starts_at_on || null`). -/
def jsNorm (v : Option String) : Option String :=
  if falsyS v then none else v

/-! ### The host runtime's date parsing

The source calls `new Date(val)` on strings.  Modelled from the host
runtime (an external collaborator, not code of this repository): the
ECMAScript date-time string format, restricted to the UTC forms the
system exchanges — `YYYY-MM-DD` (parsed as UTC midnight of that day),
`YYYY-MM-DDTHH:MM:SSZ` and `YYYY-MM-DDTHH:MMZ`.  Any other string is
modelled as an invalid date (`none`), matching `Number.isNaN(d.getTime())`
for unparseable input.  Timestamps are seconds since the Unix epoch. -/

/-- Leap year in the proleptic Gregorian calendar. -/
def isLeap (y : Nat) : Bool :=
  y % 4 == 0 && (y % 100 != 0 || y % 400 == 0)

/-- Number of days of month `m` (1-12) in year `y`. -/
def daysInMonth (y m : Nat) : Nat :=
  if m == 2 then (if isLeap y then 29 else 28)
  else if m == 4 || m == 6 || m == 9 || m == 11 then 30
  else 31

/-- Days from 0000-03-01 to `y`-`m`-`d` in the proleptic Gregorian
calendar (era-based civil-from-days computation). -/
def civilDays (y m d : Nat) : Nat :=
  let y' := if m ≤ 2 then y - 1 else y
  let era := y' / 400
  let yoe := y' % 400
  let mp := (m + 9) % 12
  let doy := (153 * mp + 2) / 5 + d - 1
  let doe := yoe * 365 + yoe / 4 - yoe / 100 + doy
  era * 146097 + doe

/-- Days between 1970-01-01 and `y`-`m`-`d` (negative before the epoch). -/
def epochDays (y m d : Nat) : Int :=
  (civilDays y m d : Int) - 719468

/-- A decimal digit character's value. -/
def digit? (c : Char) : Option Nat :=
  if c.isDigit then some (c.toNat - 48) else none

/-- Two decimal digits. -/
def dd? (a b : Char) : Option Nat := do
  let x ← digit? a
  let y ← digit? b
  pure (10 * x + y)

/-- Four decimal digits. -/
def dddd? (a b c d : Char) : Option Nat := do
  let x ← dd? a b
  let y ← dd? c d
  pure (100 * x + y)

/-- A validated UTC timestamp, in seconds since the Unix epoch. -/
def mkUtc (y mo da h mi se : Nat) : Option Int :=
  if 1 ≤ mo ∧ mo ≤ 12 ∧ 1 ≤ da ∧ da ≤ daysInMonth y mo ∧
      h ≤ 23 ∧ mi ≤ 59 ∧ se ≤ 59 then
    some (epochDays y mo da * 86400 + (h * 3600 + mi * 60 + se : Nat))
  else none

/-- `new Date(s).getTime()` of the host runtime, for the UTC ISO forms
described above; `none` stands for an invalid date (`NaN`). -/
def jsDateParse (s : String) : Option Int :=
  match s.toList with
  | [y1, y2, y3, y4, '-', m1, m2, '-', d1, d2] => do
    let y ← dddd? y1 y2 y3 y4
    let mo ← dd? m1 m2
    let da ← dd? d1 d2
    mkUtc y mo da 0 0 0
  | [y1, y2, y3, y4, '-', m1, m2, '-', d1, d2, 'T', h1, h2, ':', n1, n2, 'Z'] => do
    let y ← dddd? y1 y2 y3 y4
    let mo ← dd? m1 m2
    let da ← dd? d1 d2
    let h ← dd? h1 h2
    let mi ← dd? n1 n2
    mkUtc y mo da h mi 0
  | [y1, y2, y3, y4, '-', m1, m2, '-', d1, d2, 'T',
     h1, h2, ':', n1, n2, ':', s1, s2, 'Z'] => do
    let y ← dddd? y1 y2 y3 y4
    let mo ← dd? m1 m2
    let da ← dd? d1 d2
    let h ← dd? h1 h2
    let mi ← dd? n1 n2
    let se ← dd? s1 s2
    mkUtc y mo da h mi se
  | _ => none

/-! ### Raw remote records -/

/-- A raw remote opportunity record, restricted to the fields the source
reads.  Every field the source accesses with `o.<field>` is `Option
String` (absent on the wire means `none`); `id` is the remote-assigned
numeric identifier. -/
structure RawOpp where
  id : Int
  name : Option String := none
  subject : Option String := none
  starts_at : Option String := none
  starts_at_date : Option String := none
  start_at : Option String := none
  start_date : Option String := none
  starts_at_on : Option String := none
  ends_at : Option String := none
  ends_at_date : Option String := none
  end_at : Option String := none
  ends_at_on : Option String := none
deriving DecidableEq, Repr

/-- A raw remote member record, restricted to the fields the source reads. -/
structure RawMember where
  id : Int
  first_name : Option String := none
  last_name : Option String := none
  name : Option String := none
  full_name : Option String := none
  display_name : Option String := none
  company_name : Option String := none
deriving DecidableEq, Repr

/-! ### The in-process date-range filter (src/unnamed/part_001, first
revision, lines 117-136) -/

/-- `toDate` helper: `if (!val) return null; const d = new Date(val);
return Number.isNaN(d.getTime()) ? null : d;`. -/
def toDate (val : Option String) : Option Int :=
  match val with
  | none => none
  | some s => if s == "" then none else jsDateParse s

/-- The start timestamp the filter derives for an opportunity:
`toDate(o.starts_at) || toDate(o.starts_at_date) || toDate(o.start_at) ||
toDate(o.start_date)`.  A `Date` object is always truthy in JS, so the
chain is first-`some` selection. -/
def oppFilterStart (o : RawOpp) : Option Int :=
  (((toDate o.starts_at).or (toDate o.starts_at_date)).or
    (toDate o.start_at)).or (toDate o.start_date)

/-- Predicate of the filter callback: `if (!s) return false;
return s >= startDate && s <= endDate;` where
`startDate = new Date(start)` and `endDate = new Date(end)`.
Comparisons against an invalid date (`NaN`) are false in JS. -/
def inRange (startDate endDate : Option Int) (o : RawOpp) : Bool :=
  match oppFilterStart o with
  | none => false
  | some s =>
    match startDate, endDate with
    | some a, some b => a ≤ s && s ≤ b
    | _, _ => false

/-- `filteredOpps`: the opportunities whose derived start timestamp lies
in `[new Date(start), new Date(end)]`. -/
def filteredOpps (opportunities : List RawOpp) (start_q end_q : String) :
    List RawOpp :=
  let startDate := jsDateParse start_q
  let endDate := jsDateParse end_q
  opportunities.filter (inRange startDate endDate)

/-! ### Canonical records and the normalizers -/

/-- A canonical Job as emitted by the schedule endpoint:
`{ id, name, starts_at, ends_at }`. -/
structure Job where
  id : Int
  name : String
  starts_at : Option String
  ends_at : Option String
deriving DecidableEq, Repr

/-- A canonical StaffMember: `{ id, name }`. -/
structure StaffMember where
  id : Int
  name : String
deriving DecidableEq, Repr

/-- Job normalizer of `src/server.js`, lines 89-104:
`name: o.name || o.subject || `Opportunity #${o.id}``, and the start/end
timestamps are the first truthy of the historical field variants,
defaulting to `null`. -/
def serverJsJob (o : RawOpp) : Job :=
  { id := o.id
    name := jsSel (jsOr o.name o.subject) ("Opportunity #" ++ toString o.id)
    starts_at := jsNorm (jsOr (jsOr (jsOr o.starts_at o.starts_at_date)
      o.start_at) o.starts_at_on)
    ends_at := jsNorm (jsOr (jsOr (jsOr o.ends_at o.ends_at_date)
      o.end_at) o.ends_at_on) }

/-- `[m.first_name, m.last_name].filter(Boolean).join(' ')`: drop the
falsy entries and join the remaining strings with a single space. -/
def joinNames (m : RawMember) : String :=
  String.intercalate " "
    (([m.first_name, m.last_name].filterMap id).filter (fun s => s ≠ ""))

/-- Staff normalizer of `src/server.js`, lines 107-113:
`name: [m.first_name, m.last_name].filter(Boolean).join(' ') || m.name ||
`Member #${m.id}``. -/
def serverJsStaff (m : RawMember) : StaffMember :=
  { id := m.id
    name :=
      if joinNames m == "" then jsSel m.name ("Member #" ++ toString m.id)
      else joinNames m }

/-- Staff normalizer of `src/unnamed/part_000`, lines 98-107:
`name: m.name || m.full_name || m.display_name || m.company_name ||
`Member #${m.id}``. -/
def part000Staff (m : RawMember) : StaffMember :=
  { id := m.id
    name := jsSel (jsOr (jsOr (jsOr m.name m.full_name) m.display_name)
      m.company_name) ("Member #" ++ toString m.id) }

/-- The raw record a canonical Job corresponds to: only the canonical
field names are supplied, all other candidate fields absent. -/
def Job.toRaw (j : Job) : RawOpp :=
  { id := j.id, name := some j.name, starts_at := j.starts_at,
    ends_at := j.ends_at }

/-- The raw record a canonical StaffMember corresponds to. -/
def StaffMember.toRaw (s : StaffMember) : RawMember :=
  { id := s.id, name := some s.name }

/-! ### The `/api/schedule` handler of `src/server.js` (lines 62-197) -/

/-- A JS-object write `obj[k] = v`: replace the value when the key is
already present, otherwise add the binding at the end. -/
def objSet (m : List (Int × List Int)) (k : Int) (v : List Int) :
    List (Int × List Int) :=
  if m.any (fun p => p.1 == k) then
    m.map (fun p => if p.1 == k then (k, v) else p)
  else m ++ [(k, v)]

/-- The JSON response of the schedule endpoint, as far as the claims
observe it: HTTP status, payload lists, the `source` discriminator, and
whether an `error` field is present. -/
structure ScheduleResponse where
  status : Nat
  jobs : List Job
  staff : List StaffMember
  assignments : List (Int × List Int)
  source : Option String
  hasError : Bool
deriving DecidableEq, Repr

/-- The `GET /api/schedule` handler of `src/server.js`, as a function of
the query parameters and of the outcome of the two remote calls issued
via `Promise.all` (`.error` stands for a rejected axios promise).  The
second component counts the outbound remote requests the handler
initiates.  Paths: missing `start`/`end` → 400 before any remote call;
remote failure → the fixed mock-error fallback with `source:
"mock-error"`; an empty filtered job list → the mock fallback; otherwise
the normalized data with `source: "current-rms"`. -/
def serverJsSchedule (start_q end_q : Option String)
    (oppResp : Except Unit (List RawOpp))
    (memResp : Except Unit (List RawMember)) : ScheduleResponse × Nat :=
  if falsyS start_q || falsyS end_q then
    ({ status := 400, jobs := [], staff := [], assignments := [],
       source := none, hasError := true }, 0)
  else
    let start_s := start_q.getD ""
    let end_s := end_q.getD ""
    match oppResp, memResp with
    | .ok opportunities, .ok members =>
      let jobs := opportunities.map serverJsJob
      let staff := members.map serverJsStaff
      let assignments := jobs.foldl (fun m j => objSet m j.id []) []
      if jobs.length == 0 then
        let mockJobs : List Job :=
          [{ id := 9001, name := "Example Job 1 (mock)",
             starts_at := some (start_s ++ " 09:00"),
             ends_at := some (start_s ++ " 17:00") },
           { id := 9002, name := "Example Job 2 (mock)",
             starts_at := some (end_s ++ " 10:00"),
             ends_at := some (end_s ++ " 18:00") }]
        let someStaffIds := (staff.take 3).map (fun s => s.id)
        let mockAssignments :=
          mockJobs.foldl (fun m j => objSet m j.id someStaffIds) []
        ({ status := 200, jobs := mockJobs, staff := staff,
           assignments := mockAssignments, source := some "mock",
           hasError := false }, 2)
      else
        ({ status := 200, jobs := jobs, staff := staff,
           assignments := assignments, source := some "current-rms",
           hasError := false }, 2)
    | _, _ =>
      let staff : List StaffMember :=
        [⟨1, "Alice Tech"⟩, ⟨2, "Bob LX"⟩, ⟨3, "Charlie Audio"⟩]
      let jobs : List Job :=
        [{ id := 101, name := "Mock Job One (error fallback)",
           starts_at := some (start_s ++ " 09:00"),
           ends_at := some (start_s ++ " 18:00") },
         { id := 102, name := "Mock Job Two (error fallback)",
           starts_at := some (end_s ++ " 10:00"),
           ends_at := some (end_s ++ " 22:00") }]
      ({ status := 200, jobs := jobs, staff := staff,
         assignments := [(101, [1, 2]), (102, [2, 3])],
         source := some "mock-error", hasError := true }, 2)

/-! ### Spec-side definitions (for refinement comparisons)

These follow the specification's wording, to be compared against the
definitions translated from the source. -/

/-- The string content of an optional field (`""` when absent). -/
def optS (v : Option String) : String := v.getD ""

/-- Modelled from the spec: "the first non-empty value of" an ordered
candidate list, with a final synthesized default. -/
def firstNonEmpty (cands : List String) (d : String) : String :=
  ((cands.filter (fun s => s ≠ "")).head?).getD d

/-- Modelled from the spec: the claimed StaffMember-name chain — the
first non-empty of first+last joined with a single space, `name`,
`full_name`, `display_name`, `company_name`, else a label containing the
id. -/
def specStaffName (m : RawMember) : String :=
  firstNonEmpty
    [joinNames m, optS m.name, optS m.full_name, optS m.display_name,
     optS m.company_name]
    ("Member #" ++ toString m.id)

/-! ### Concrete inputs used in counterexamples and witnesses -/

/-- An opportunity starting mid-day on the end date of the window. -/
def oppMidday : RawOpp :=
  { id := 55, starts_at := some "2024-01-07T10:00:00Z" }

/-- An opportunity none of whose start candidates parses as a date. -/
def oppUnparseable : RawOpp :=
  { id := 9, starts_at := some "not-a-date", starts_at_date := some "",
    start_at := some "2024-13-40" }

/-- A plain opportunity with only an id. -/
def oppPlain : RawOpp := { id := 42 }

/-- A member with first/last names and a `full_name`. -/
def memFirstLast : RawMember :=
  { id := 7, first_name := some "A", last_name := some "B",
    full_name := some "F" }

/-- A member carrying only a `full_name`. -/
def memFullOnly : RawMember := { id := 7, full_name := some "F" }

/-- A remote serving 50 full pages followed by a one-item page 51. -/
def remoteFifty : (String → Option ParamVal) → List Nat :=
  fun ps =>
    match ps "page" with
    | some (.nat p) => if p ≤ 50 then List.replicate 100 0 else [7]
    | _ => []

/-- A remote serving one full page followed by a one-item page 2. -/
def remoteOne : (String → Option ParamVal) → List Nat :=
  fun ps =>
    match ps "page" with
    | some (.nat p) => if p ≤ 1 then List.replicate 100 0 else [7]
    | _ => []

/-- An empty base-parameter mapping. -/
def noParams : String → Option ParamVal := fun _ => none

/-- A remote ignoring its request and returning a fixed full page. -/
def remoteConst : (String → Option ParamVal) → List Nat :=
  fun _ => List.replicate 100 0

/-- A remote that always answers with an empty page. -/
def remoteEmpty : (String → Option ParamVal) → List Nat := fun _ => []

/-- Base parameters that smuggle in `page` and `per_page` entries. -/
def paramsWithPage : String → Option ParamVal :=
  fun k =>
    if k = "page" then some (.nat 7)
    else if k = "per_page" then some (.nat 5)
    else if k = "view" then some (.str "all")
    else none

/-- The same base parameters without the `page`/`per_page` entries. -/
def paramsNoPage : String → Option ParamVal :=
  fun k => if k = "view" then some (.str "all") else none

/-! ## Helper lemmas -/

theorem fetchLoop_all_full {α : Type}
    (remote : (String → Option ParamVal) → List α)
    (baseParams : String → Option ParamVal) (fuel page : Nat)
    (hfull : ∀ p, page ≤ p → p < page + fuel →
      (pageOf remote baseParams p).length = 100) :
    fetchLoop remote baseParams fuel page =
      ((List.range' page fuel).flatMap (pageOf remote baseParams),
       (List.range' page fuel).map (mergedParams baseParams)) := by
  induction fuel generalizing page with
  | zero => simp [fetchLoop]
  | succ n ih =>
    have hp : (pageOf remote baseParams page).length = 100 :=
      hfull page le_rfl (by omega)
    have hrec := ih (page + 1) (fun p h1 h2 => hfull p (by omega) (by omega))
    simp only [fetchLoop, hrec]
    rw [if_neg (by simp [pageOf] at hp; omega)]
    simp [List.range'_succ, pageOf]

theorem fetchLoop_short_page {α : Type}
    (remote : (String → Option ParamVal) → List α)
    (baseParams : String → Option ParamVal) (n : Nat) :
    ∀ fuel page, n < fuel →
    (∀ p, page ≤ p → p < page + n →
      (pageOf remote baseParams p).length = 100) →
    (pageOf remote baseParams (page + n)).length < 100 →
    fetchLoop remote baseParams fuel page =
      ((List.range' page (n + 1)).flatMap (pageOf remote baseParams),
       (List.range' page (n + 1)).map (mergedParams baseParams)) := by
  induction n with
  | zero =>
    intro fuel page hfuel _ hshort
    match fuel, hfuel with
    | f + 1, _ =>
      simp only [fetchLoop]
      rw [if_pos (by simpa [pageOf] using hshort)]
      simp [pageOf]
  | succ m ih =>
    intro fuel page hfuel hfull hshort
    match fuel, hfuel with
    | f + 1, hf =>
      have hp : (pageOf remote baseParams page).length = 100 :=
        hfull page le_rfl (by omega)
      have hrec := ih f (page + 1) (by omega)
        (fun p h1 h2 => hfull p (by omega) (by omega))
        (by have : page + 1 + m = page + (m + 1) := by omega
            rw [this]; exact hshort)
      simp only [fetchLoop, hrec]
      rw [if_neg (by simp [pageOf] at hp; omega)]
      simp [List.range'_succ, pageOf]

theorem flatMap_length_const {α β : Type} (f : α → List β) (l : List α)
    (h : ∀ a ∈ l, (f a).length = 100) :
    (l.flatMap f).length = 100 * l.length := by
  induction l with
  | nil => simp
  | cons a t ih =>
    simp only [List.flatMap_cons, List.length_append, List.length_cons,
      h a (List.mem_cons_self a t), ih (fun b hb => h b (List.mem_cons_of_mem a hb))]
    ring

theorem jsSel_eq (a : Option String) (d : String) :
    jsSel a d = if optS a = "" then d else optS a := by
  cases a with
  | none => simp [jsSel, falsyS, optS]
  | some s => by_cases h : s = "" <;> simp [jsSel, falsyS, optS, h]

theorem jsOr_eq (a b : Option String) :
    jsOr a b = if optS a = "" then b else a := by
  cases a with
  | none => simp [jsOr, falsyS, optS]
  | some s => by_cases h : s = "" <;> simp [jsOr, falsyS, optS, h]

theorem jsNorm_eq (v : Option String) :
    jsNorm v = if optS v = "" then none else v := by
  cases v with
  | none => simp [jsNorm, falsyS, optS]
  | some s => by_cases h : s = "" <;> simp [jsNorm, falsyS, optS, h]

theorem firstNonEmpty_cons (s : String) (l : List String) (d : String) :
    firstNonEmpty (s :: l) d = if s = "" then firstNonEmpty l d else s := by
  by_cases h : s = "" <;> simp [firstNonEmpty, h]

theorem firstNonEmpty_nil (d : String) : firstNonEmpty [] d = d := rfl

theorem string_append_ne_empty (p t : String) (hp : p.data ≠ []) :
    p ++ t ≠ "" := by
  intro h
  apply hp
  have hd : (p ++ t).data = ("" : String).data := congrArg String.data h
  rw [String.data_append] at hd
  exact (List.append_eq_nil.mp hd).1

theorem jsSel_ne_empty (a : Option String) (d : String) (hd : d ≠ "") :
    jsSel a d ≠ "" := by
  rw [jsSel_eq]
  by_cases h : optS a = "" <;> simp [h, hd]

theorem lookup_isSome_iff (q : Int) (m : List (Int × List Int)) :
    (m.lookup q).isSome = true ↔ ∃ p ∈ m, p.1 = q := by
  induction m with
  | nil => simp [List.lookup_nil]
  | cons p t ih =>
    obtain ⟨pk, pv⟩ := p
    rw [List.lookup_cons]
    by_cases h : q = pk
    · subst h
      simp
    · have hb : (q == pk) = false := beq_eq_false_iff_ne.mpr h
      simp only [hb, ih, List.mem_cons]
      constructor
      · rintro ⟨p, hp, hpq⟩
        exact ⟨p, Or.inr hp, hpq⟩
      · rintro ⟨p, hp | hp, hpq⟩
        · subst hp
          exact absurd hpq.symm h
        · exact ⟨p, hp, hpq⟩

theorem objSet_lookup_self (m : List (Int × List Int)) (k : Int)
    (v : List Int) : ((objSet m k v).lookup k).isSome = true := by
  rw [lookup_isSome_iff]
  unfold objSet
  by_cases hany : m.any (fun p => p.1 == k)
  · rw [if_pos hany]
    rw [List.any_eq_true] at hany
    obtain ⟨p, hp, hpk⟩ := hany
    refine ⟨if p.1 == k then (k, v) else p, List.mem_map.mpr ⟨p, hp, rfl⟩, ?_⟩
    rw [if_pos hpk]
  · rw [if_neg hany]
    exact ⟨(k, v), List.mem_append_right _ (List.mem_singleton.mpr rfl), rfl⟩

theorem objSet_lookup_mono (m : List (Int × List Int)) (k : Int)
    (v : List Int) (q : Int) (h : (m.lookup q).isSome = true) :
    ((objSet m k v).lookup q).isSome = true := by
  rw [lookup_isSome_iff] at h ⊢
  obtain ⟨p, hp, hpq⟩ := h
  unfold objSet
  by_cases hany : m.any (fun p => p.1 == k)
  · rw [if_pos hany]
    refine ⟨if p.1 == k then (k, v) else p, List.mem_map.mpr ⟨p, hp, rfl⟩, ?_⟩
    by_cases hpk : (p.1 == k) = true
    · rw [if_pos hpk]
      have hk : p.1 = k := by simpa using hpk
      rw [← hk]
      exact hpq
    · rw [if_neg hpk]
      exact hpq
  · rw [if_neg hany]
    exact ⟨p, List.mem_append_left _ hp, hpq⟩

theorem foldl_objSet_lookup (f : Job → List Int) (jobs : List Job)
    (init : List (Int × List Int)) (j : Job)
    (h : j ∈ jobs ∨ (init.lookup j.id).isSome = true) :
    (((jobs.foldl (fun m jb => objSet m jb.id (f jb)) init).lookup
      j.id).isSome) = true := by
  induction jobs generalizing init with
  | nil =>
    rcases h with h | h
    · simp at h
    · simpa using h
  | cons jb t ih =>
    simp only [List.foldl_cons]
    apply ih
    rcases h with h | h
    · rcases List.mem_cons.mp h with h | h
      · right
        subst h
        exact objSet_lookup_self init j.id (f j)
      · left; exact h
    · right
      exact objSet_lookup_mono init jb.id (f jb) j.id h

/-! ## Claims about the paginator -/

/-- Claim C4: if every requested page returns a full page of 100 items,
`fetchAllPages` terminates after requesting exactly the pages 1 through
50 (the hard ceiling), requests no page beyond 50, and returns the
concatenation of those 50 pages in ascending page order. -/
theorem C4_ceiling_fifty_pages {α : Type}
    (remote : (String → Option ParamVal) → List α)
    (baseParams : String → Option ParamVal)
    (hfull : ∀ p, 1 ≤ p → p ≤ 50 →
      (pageOf remote baseParams p).length = 100) :
    (fetchAllPages remote baseParams).2 =
      (List.range' 1 50).map (mergedParams baseParams) ∧
    (fetchAllPages remote baseParams).1 =
      (List.range' 1 50).flatMap (pageOf remote baseParams) := by
  have h := fetchLoop_all_full remote baseParams 50 1
    (fun p h1 h2 => hfull p h1 (by omega))
  unfold fetchAllPages
  rw [h]
  exact ⟨rfl, rfl⟩

theorem C4_witness :
    (fetchAllPages remoteConst noParams).2 =
      (List.range' 1 50).map (mergedParams noParams) ∧
    (fetchAllPages remoteConst noParams).1 =
      (List.range' 1 50).flatMap (pageOf remoteConst noParams) :=
  C4_ceiling_fifty_pages remoteConst noParams
    (fun p _ _ => by simp [pageOf, remoteConst])

/-- Claim C5, as amended: the claim as stated fails at N = 50 (see
`C5_counterexample`), because the 50-page ceiling prevents the short
page 51 from ever being requested.  For N < 50 full pages followed by a
short page, `fetchAllPages` returns exactly 100·N + k records, in the
remote's per-page order across ascending page numbers, and requests no
page after the short page. -/
theorem C5_short_page_totals {α : Type}
    (remote : (String → Option ParamVal) → List α)
    (baseParams : String → Option ParamVal) (N k : Nat) (hN : N < 50)
    (hfull : ∀ p, 1 ≤ p → p ≤ N →
      (pageOf remote baseParams p).length = 100)
    (hshort : (pageOf remote baseParams (N + 1)).length = k)
    (hk : k < 100) :
    (fetchAllPages remote baseParams).1 =
      (List.range' 1 (N + 1)).flatMap (pageOf remote baseParams) ∧
    (fetchAllPages remote baseParams).1.length = 100 * N + k ∧
    (fetchAllPages remote baseParams).2 =
      (List.range' 1 (N + 1)).map (mergedParams baseParams) := by
  have h := fetchLoop_short_page remote baseParams N 50 1 hN
    (fun p h1 h2 => hfull p h1 (by omega))
    (by rw [show 1 + N = N + 1 by omega, hshort]; exact hk)
  unfold fetchAllPages
  rw [h]
  refine ⟨rfl, ?_, rfl⟩
  rw [List.range'_concat, List.flatMap_append, List.length_append,
    flatMap_length_const _ _ (fun a ha => by
      have hb := List.mem_range'_1.mp ha
      exact hfull a hb.1 (by omega))]
  simp only [List.flatMap_cons, List.flatMap_nil, List.append_nil,
    List.length_range']
  rw [show 1 + 1 * N = N + 1 by omega, hshort]

theorem C5_witness :
    (fetchAllPages remoteOne noParams).1 =
      (List.range' 1 2).flatMap (pageOf remoteOne noParams) ∧
    (fetchAllPages remoteOne noParams).1.length = 100 * 1 + 1 ∧
    (fetchAllPages remoteOne noParams).2 =
      (List.range' 1 2).map (mergedParams noParams) :=
  C5_short_page_totals remoteOne noParams 1 1 (by omega)
    (fun p h1 h2 => by
      have hp : p = 1 := by omega
      subst hp
      simp [pageOf, remoteOne, mergedParams])
    (by simp [pageOf, remoteOne, mergedParams])
    (by omega)

/-- Claim C5 counterexample: a remote serving 50 full pages and a short
page 51 of one item satisfies the claim's premise with N = 50 and k = 1,
but `fetchAllPages` returns 5000 records, not 100·50 + 1 = 5001: the
ceiling stops the fetch before the short page. -/
theorem C5_counterexample :
    (∀ p, 1 ≤ p → p ≤ 50 → (pageOf remoteFifty noParams p).length = 100) ∧
    (pageOf remoteFifty noParams 51).length = 1 ∧
    (fetchAllPages remoteFifty noParams).1.length = 5000 ∧
    ¬(fetchAllPages remoteFifty noParams).1.length = 100 * 50 + 1 := by
  have hfull : ∀ p, 1 ≤ p → p ≤ 50 →
      (pageOf remoteFifty noParams p).length = 100 := by
    intro p h1 h2
    simp [pageOf, remoteFifty, mergedParams, h2]
  have hlen : (fetchAllPages remoteFifty noParams).1.length = 5000 := by
    unfold fetchAllPages
    rw [fetchLoop_all_full remoteFifty noParams 50 1
      (fun p h1 h2 => hfull p h1 (by omega))]
    dsimp only
    rw [flatMap_length_const _ _ (fun a ha => by
      have hb := List.mem_range'_1.mp ha
      exact hfull a hb.1 (by omega))]
    simp
  refine ⟨hfull, ?_, hlen, by rw [hlen]; omega⟩
  simp [pageOf, remoteFifty, mergedParams]

/-- Claim C10: the internally controlled page counter and the fixed page
size are merged after `baseParams`, so two base-parameter mappings that
differ only in their `page`/`per_page` entries produce identical page
requests and identical results. -/
theorem C10_page_params_override {α : Type}
    (remote : (String → Option ParamVal) → List α)
    (b1 b2 : String → Option ParamVal)
    (h : ∀ k, k ≠ "page" → k ≠ "per_page" → b1 k = b2 k) :
    fetchAllPages remote b1 = fetchAllPages remote b2 := by
  have hm : ∀ p, mergedParams b1 p = mergedParams b2 p := by
    intro p
    funext k
    unfold mergedParams
    by_cases h1 : (k == "page") = true
    · rw [if_pos h1, if_pos h1]
    · rw [if_neg h1, if_neg h1]
      by_cases h2 : (k == "per_page") = true
      · rw [if_pos h2, if_pos h2]
      · rw [if_neg h2, if_neg h2]
        exact h k (by simpa using h1) (by simpa using h2)
  unfold fetchAllPages
  suffices hloop : ∀ fuel page,
      fetchLoop remote b1 fuel page = fetchLoop remote b2 fuel page from
    hloop 50 1
  intro fuel
  induction fuel with
  | zero => intro page; rfl
  | succ n ih =>
    intro page
    simp only [fetchLoop, hm page, ih (page + 1)]

theorem C10_witness :
    (∀ k, k ≠ "page" → k ≠ "per_page" →
      paramsWithPage k = paramsNoPage k) ∧
    fetchAllPages remoteEmpty paramsWithPage =
      fetchAllPages remoteEmpty paramsNoPage := by
  have h : ∀ k, k ≠ "page" → k ≠ "per_page" →
      paramsWithPage k = paramsNoPage k := by
    intro k h1 h2
    simp [paramsWithPage, paramsNoPage, h1, h2]
  exact ⟨h, C10_page_params_override remoteEmpty paramsWithPage paramsNoPage h⟩

/-! ## Claims about the date-range filter -/

theorem inRange_iff (sd ed : Option Int) (o : RawOpp) :
    inRange sd ed o = true ↔
      ∃ s a b, oppFilterStart o = some s ∧ sd = some a ∧ ed = some b ∧
        a ≤ s ∧ s ≤ b := by
  unfold inRange
  cases h : oppFilterStart o with
  | none => simp
  | some s =>
    cases sd with
    | none => simp
    | some a =>
      cases ed with
      | none => simp
      | some b => simp [Bool.and_eq_true, decide_eq_true_iff]

/-- Claim C1 counterexample: for the request `start=2024-01-01`,
`end=2024-01-07`, an opportunity starting at 10:00 UTC on the end date —
squarely inside the claimed full-day window
`[2024-01-01T00:00:00Z, 2024-01-07T23:59:59Z]` — is dropped by the
filter, because `new Date(end)` is midnight of the end date, not its
last second. -/
theorem C1_counterexample :
    jsDateParse "2024-01-01" = some 1704067200 ∧
    jsDateParse "2024-01-07T23:59:59Z" = some 1704671999 ∧
    oppFilterStart oppMidday = some 1704621600 ∧
    (1704067200 : Int) ≤ 1704621600 ∧ (1704621600 : Int) ≤ 1704671999 ∧
    filteredOpps [oppMidday] "2024-01-01" "2024-01-07" = [] := by
  refine ⟨by decide, by decide, by decide, by decide, by decide, by decide⟩

/-- Claim C1, as amended: the filter keeps exactly the opportunities
whose first parseable start-timestamp candidate `s` satisfies
`parse(start) ≤ s ≤ parse(end)`, where a calendar date parses to
midnight UTC of that day — i.e. the window is
`[start 00:00:00Z, end 00:00:00Z]`, not `[start 00:00:00Z,
end 23:59:59Z]`: a job starting strictly after midnight on the end date
is excluded, and every retained job a fortiori lies inside the claimed
full-day window. -/
theorem C1_filter_characterization (opportunities : List RawOpp)
    (qs qe : String) (o : RawOpp) :
    o ∈ filteredOpps opportunities qs qe ↔
      o ∈ opportunities ∧ ∃ s a b, oppFilterStart o = some s ∧
        jsDateParse qs = some a ∧ jsDateParse qe = some b ∧
        a ≤ s ∧ s ≤ b := by
  unfold filteredOpps
  rw [List.mem_filter, inRange_iff]

/-- Claim C8: an opportunity none of whose start-timestamp candidates
parses into a valid date is excluded from the filter's result; the
filter (a total function in this embedding, like the underlying
JavaScript, which returns `null` from `toDate` instead of throwing)
evaluates without error on such records. -/
theorem C8_unparseable_excluded (opportunities : List RawOpp)
    (qs qe : String) (o : RawOpp) (_ho : o ∈ opportunities)
    (hbad : oppFilterStart o = none) :
    o ∉ filteredOpps opportunities qs qe := by
  unfold filteredOpps
  rw [List.mem_filter]
  rintro ⟨-, hr⟩
  rw [inRange_iff] at hr
  obtain ⟨s, a, b, hs, -⟩ := hr
  rw [hbad] at hs
  exact Option.noConfusion hs

theorem C8_witness :
    oppUnparseable ∈ [oppUnparseable] ∧
    oppFilterStart oppUnparseable = none ∧
    oppUnparseable ∉ filteredOpps [oppUnparseable] "2024-01-01" "2024-01-07" :=
  ⟨by simp, by decide,
    C8_unparseable_excluded [oppUnparseable] "2024-01-01" "2024-01-07"
      oppUnparseable (by simp) (by decide)⟩

/-! ## Claims about the normalizers -/

theorem foldl_jsOr_eq (l : List (Option String)) (acc : Option String)
    (d : String) :
    jsSel (l.foldl jsOr acc) d =
      if optS acc = "" then firstNonEmpty (l.map optS) d else optS acc := by
  induction l generalizing acc with
  | nil => simp [jsSel_eq, firstNonEmpty_nil]
  | cons a t ih =>
    rw [List.foldl_cons, ih, jsOr_eq]
    by_cases h : optS acc = ""
    · rw [if_pos h, if_pos h, List.map_cons, firstNonEmpty_cons]
    · rw [if_neg h, if_neg h, if_neg h]

/-- Claim C2 counterexample: a member with `first_name = "A"`,
`last_name = "B"` and `full_name = "F"` gets name `"F"` from the
part_000 normalizer (which never consults first/last names), not the
claimed `"A B"`; and a member with only `full_name = "F"` gets the
synthesized `"Member #7"` from the server.js normalizer (which never
consults `full_name`), not the claimed `"F"`. -/
theorem C2_counterexample :
    specStaffName memFirstLast = "A B" ∧
    (part000Staff memFirstLast).name = "F" ∧
    (part000Staff memFirstLast).name ≠ specStaffName memFirstLast ∧
    specStaffName memFullOnly = "F" ∧
    (serverJsStaff memFullOnly).name = "Member #7" ∧
    (serverJsStaff memFullOnly).name ≠ specStaffName memFullOnly := by
  refine ⟨by decide, by decide, by decide, by decide, by decide, by decide⟩

/-- Claim C2, as amended: each variant uses a strict sub-chain of the
claimed candidate list.  The part_000 normalizer takes the first
non-empty of `name`, `full_name`, `display_name`, `company_name`, else
the synthesized `Member #<id>` label — it never joins first/last names;
the server.js normalizer takes first+last joined with a single space,
else `name`, else the label — it never consults `full_name`,
`display_name` or `company_name`. -/
theorem C2_staff_name_characterization (m : RawMember) :
    (part000Staff m).name =
      firstNonEmpty
        [optS m.name, optS m.full_name, optS m.display_name,
         optS m.company_name] ("Member #" ++ toString m.id) ∧
    (serverJsStaff m).name =
      firstNonEmpty [joinNames m, optS m.name]
        ("Member #" ++ toString m.id) := by
  constructor
  · have h : (part000Staff m).name =
        jsSel (List.foldl jsOr none
          [m.name, m.full_name, m.display_name, m.company_name])
          ("Member #" ++ toString m.id) := rfl
    rw [h, foldl_jsOr_eq]
    simp [optS]
  · unfold serverJsStaff
    rw [firstNonEmpty_cons]
    by_cases h : joinNames m = ""
    · rw [if_pos h]
      have hb : (joinNames m == "") = true := beq_iff_eq.mpr h
      simp only [hb, if_true]
      rw [jsSel_eq, firstNonEmpty_cons, firstNonEmpty_nil]
    · rw [if_neg h]
      have hb : (joinNames m == "") = false := beq_eq_false_iff_ne.mpr h
      simp only [hb, Bool.false_eq_true, if_false]

theorem jsOr_jsNorm_none (v : Option String) :
    jsOr (jsNorm v) none = jsNorm v := by
  rw [jsNorm_eq]
  by_cases h : optS v = ""
  · rw [if_pos h]; rfl
  · rw [if_neg h, jsOr_eq]
    cases v with
    | none => exact absurd rfl h
    | some s => rw [if_neg h]

theorem jsNorm_jsNorm (v : Option String) : jsNorm (jsNorm v) = jsNorm v := by
  rw [jsNorm_eq v]
  by_cases h : optS v = ""
  · rw [if_pos h]; rfl
  · rw [if_neg h, jsNorm_eq]
    cases v with
    | none => exact absurd rfl h
    | some s => rw [if_neg h]

theorem serverJsJob_toRaw (j : Job) (hn : j.name ≠ "")
    (hs : jsNorm j.starts_at = j.starts_at)
    (he : jsNorm j.ends_at = j.ends_at) :
    serverJsJob (Job.toRaw j) = j := by
  obtain ⟨i, n, s, e⟩ := j
  simp only [Job.toRaw] at *
  unfold serverJsJob
  simp only [Job.mk.injEq, true_and]
  have hn' : optS (some n) ≠ "" := hn
  refine ⟨?_, ?_, ?_⟩
  · rw [jsOr_eq, if_neg hn', jsSel_eq, if_neg hn']
    rfl
  · rw [← hs, jsOr_jsNorm_none, jsOr_jsNorm_none, jsOr_jsNorm_none,
      jsNorm_jsNorm]
  · rw [← he, jsOr_jsNorm_none, jsOr_jsNorm_none, jsOr_jsNorm_none,
      jsNorm_jsNorm]

theorem serverJsStaff_toRaw (s : StaffMember) (hn : s.name ≠ "") :
    serverJsStaff (StaffMember.toRaw s) = s := by
  obtain ⟨i, n⟩ := s
  simp only [StaffMember.toRaw] at *
  unfold serverJsStaff
  simp only [StaffMember.mk.injEq, true_and]
  have hb : (joinNames
      { id := i, name := some n, first_name := none, last_name := none,
        full_name := none, display_name := none, company_name := none } ==
      "") = true := rfl
  rw [hb]
  simp only [if_true]
  have hn' : optS (some n) ≠ "" := hn
  rw [jsSel_eq, if_neg hn']
  rfl

theorem serverJsStaff_name_ne_empty (m : RawMember) :
    (serverJsStaff m).name ≠ "" := by
  unfold serverJsStaff
  by_cases h : (joinNames m == "") = true
  · simp only [h, if_true]
    exact jsSel_ne_empty _ _
      (string_append_ne_empty "Member #" _ (by decide))
  · have h' : (joinNames m == "") = false := by simpa using h
    simp only [h', Bool.false_eq_true, if_false]
    exact beq_eq_false_iff_ne.mp h'

/-- Claim C9: the server.js normalizers are idempotent — normalizing the
already-canonical record (only `id`/`name`/`starts_at`/`ends_at` for a
Job, only `id`/`name` for a StaffMember) returns the same output as
normalizing the raw form it came from. -/
theorem C9_normalize_idempotent (o : RawOpp) (m : RawMember) :
    serverJsJob (Job.toRaw (serverJsJob o)) = serverJsJob o ∧
    serverJsStaff (StaffMember.toRaw (serverJsStaff m)) = serverJsStaff m := by
  constructor
  · apply serverJsJob_toRaw
    · exact jsSel_ne_empty _ _
        (string_append_ne_empty "Opportunity #" _ (by decide))
    · show jsNorm (jsNorm _) = jsNorm _
      exact jsNorm_jsNorm _
    · show jsNorm (jsNorm _) = jsNorm _
      exact jsNorm_jsNorm _
  · exact serverJsStaff_toRaw _ (serverJsStaff_name_ne_empty m)

/-! ## Claims about the schedule endpoint -/

/-- Claim C3: when the `start` or `end` query parameter is absent, the
handler responds HTTP 400 with an error body and initiates no outbound
remote call (the guard precedes the `Promise.all`; the remote-call
counter stays 0). -/
theorem C3_missing_params_400 (start_q end_q : Option String)
    (oppResp : Except Unit (List RawOpp))
    (memResp : Except Unit (List RawMember))
    (h : start_q = none ∨ end_q = none) :
    (serverJsSchedule start_q end_q oppResp memResp).1.status = 400 ∧
    (serverJsSchedule start_q end_q oppResp memResp).1.hasError = true ∧
    (serverJsSchedule start_q end_q oppResp memResp).2 = 0 := by
  rcases h with h | h <;> subst h <;>
    simp [serverJsSchedule, falsyS]

theorem C3_witness :
    (serverJsSchedule none (some "2024-01-07") (.ok []) (.ok [])).1.status =
      400 ∧
    (serverJsSchedule none (some "2024-01-07") (.ok [])
      (.ok [])).1.hasError = true ∧
    (serverJsSchedule none (some "2024-01-07") (.ok []) (.ok [])).2 = 0 :=
  C3_missing_params_400 none (some "2024-01-07") (.ok []) (.ok [])
    (Or.inl rfl)

/-- Claim C6: in the fallback-supporting variant (server.js), when both
query parameters are present and a remote call rejects, the response has
status 200, `source = "mock-error"`, and non-empty mock jobs, staff and
assignments. -/
theorem C6_mock_error_fallback (start_q end_q : Option String)
    (oppResp : Except Unit (List RawOpp))
    (memResp : Except Unit (List RawMember))
    (hs : falsyS start_q = false) (he : falsyS end_q = false)
    (herr : oppResp = .error () ∨ memResp = .error ()) :
    (serverJsSchedule start_q end_q oppResp memResp).1.status = 200 ∧
    (serverJsSchedule start_q end_q oppResp memResp).1.source =
      some "mock-error" ∧
    (serverJsSchedule start_q end_q oppResp memResp).1.jobs ≠ [] ∧
    (serverJsSchedule start_q end_q oppResp memResp).1.staff ≠ [] ∧
    (serverJsSchedule start_q end_q oppResp memResp).1.assignments ≠ [] := by
  rcases herr with h | h <;> subst h
  · cases memResp <;> simp [serverJsSchedule, hs, he]
  · cases oppResp <;> simp [serverJsSchedule, hs, he]

theorem C6_witness :
    (serverJsSchedule (some "2024-01-01") (some "2024-01-07") (.error ())
      (.ok [])).1.status = 200 ∧
    (serverJsSchedule (some "2024-01-01") (some "2024-01-07") (.error ())
      (.ok [])).1.source = some "mock-error" ∧
    (serverJsSchedule (some "2024-01-01") (some "2024-01-07") (.error ())
      (.ok [])).1.jobs ≠ [] ∧
    (serverJsSchedule (some "2024-01-01") (some "2024-01-07") (.error ())
      (.ok [])).1.staff ≠ [] ∧
    (serverJsSchedule (some "2024-01-01") (some "2024-01-07") (.error ())
      (.ok [])).1.assignments ≠ [] :=
  C6_mock_error_fallback (some "2024-01-01") (some "2024-01-07")
    (.error ()) (.ok []) rfl rfl (Or.inl rfl)

/-- Claim C7: in every response assembled by the schedule endpoint, every
job id appearing in the `jobs` list has an entry (possibly an empty
sequence) in the `assignments` map — on the normal path each job id is
written an empty array, on the mock path the mock job ids are written the
sampled staff ids, and on the error path the literal map covers ids 101
and 102. -/
theorem C7_assignments_cover_jobs (start_q end_q : Option String)
    (oppResp : Except Unit (List RawOpp))
    (memResp : Except Unit (List RawMember)) (j : Job)
    (hj : j ∈ (serverJsSchedule start_q end_q oppResp memResp).1.jobs) :
    (((serverJsSchedule start_q end_q oppResp memResp).1.assignments).lookup
      j.id).isSome = true := by
  by_cases hguard : (falsyS start_q || falsyS end_q) = true
  · simp [serverJsSchedule, hguard] at hj
  · have hguard' : (falsyS start_q || falsyS end_q) = false := by
      simpa using hguard
    cases oppResp with
    | error e =>
      cases memResp <;>
        · simp only [serverJsSchedule, hguard', Bool.false_eq_true,
            if_false] at hj ⊢
          rcases List.mem_cons.mp hj with h | h
          · subst h; rfl
          · rcases List.mem_cons.mp h with h | h
            · subst h; rfl
            · simp at h
    | ok opportunities =>
      cases memResp with
      | error e =>
        simp only [serverJsSchedule, hguard', Bool.false_eq_true,
          if_false] at hj ⊢
        rcases List.mem_cons.mp hj with h | h
        · subst h; rfl
        · rcases List.mem_cons.mp h with h | h
          · subst h; rfl
          · simp at h
      | ok members =>
        simp only [serverJsSchedule, hguard', Bool.false_eq_true,
          if_false] at hj ⊢
        by_cases hempty :
            ((opportunities.map serverJsJob).length == 0) = true
        · simp only [hempty, if_true] at hj ⊢
          exact foldl_objSet_lookup _ _ _ j (Or.inl hj)
        · have hempty' :
              ((opportunities.map serverJsJob).length == 0) = false := by
            simpa using hempty
          simp only [hempty', Bool.false_eq_true, if_false] at hj ⊢
          exact foldl_objSet_lookup _ _ _ j (Or.inl hj)

theorem C7_witness :
    (((serverJsSchedule (some "2024-01-01") (some "2024-01-07")
      (.ok [oppPlain]) (.ok [])).1.assignments).lookup
      (serverJsJob oppPlain).id).isSome = true :=
  C7_assignments_cover_jobs (some "2024-01-01") (some "2024-01-07")
    (.ok [oppPlain]) (.ok []) (serverJsJob oppPlain) (by decide)

end CurrentRms
